import Mathlib

/-!
Shallow embedding of the viewport subsystem of landmarker.io
(src/js/app/view/viewport/index.js).

Modelling conventions:
* JS numbers are modelled as exact rationals.
* Angles are stored as rational coefficients of pi: `Math.PI` becomes the
  coefficient `1`, `multiplier * Math.PI / 2` becomes `multiplier / 2`.
* Comparisons and zero tests of Euclidean distances/lengths are made on the
  squared values: squaring is strictly monotone on nonnegative reals, so
  `d1 < d2` and `d = 0` agree with the squared versions.
* Mutating methods become state-passing functions on an explicit record of
  the viewport fields they touch.
-/

namespace Landmarker

/-- THREE.Vector3 with exact rational coordinates. -/
structure Vec3 where
  x : ℚ
  y : ℚ
  z : ℚ
deriving DecidableEq

/-- THREE.Vector3.addVectors / add. -/
def Vec3.add (a b : Vec3) : Vec3 := ⟨a.x + b.x, a.y + b.y, a.z + b.z⟩

/-- THREE.Vector3.sub. -/
def Vec3.sub (a b : Vec3) : Vec3 := ⟨a.x - b.x, a.y - b.y, a.z - b.z⟩

/-- THREE.Vector3.multiplyScalar (-1), i.e. negation. -/
def Vec3.neg (a : Vec3) : Vec3 := ⟨-a.x, -a.y, -a.z⟩

/-- Scalar multiple of a vector (used to state scale invariance of the
nearest-axis search, which justifies eliding the source's `normalize`). -/
def Vec3.smul (c : ℚ) (a : Vec3) : Vec3 := ⟨c * a.x, c * a.y, c * a.z⟩

/-- THREE.Vector3.dot. -/
def Vec3.dot (a b : Vec3) : ℚ := a.x * b.x + a.y * b.y + a.z * b.z

/-- Squared THREE.Vector3.length. -/
def Vec3.lengthSq (a : Vec3) : ℚ := a.dot a

/-- Squared THREE.Vector3.distanceTo. -/
def Vec3.distSq (a b : Vec3) : ℚ := (a.sub b).lengthSq

/-- The six canonical axis vectors, in the order of the source's COORDS
array: +X, -X, +Y, -Y, +Z, -Z. -/
def COORDS : List Vec3 :=
  [⟨1, 0, 0⟩, ⟨-1, 0, 0⟩, ⟨0, 1, 0⟩, ⟨0, -1, 0⟩, ⟨0, 0, 1⟩, ⟨0, 0, -1⟩]

/-- ORIGINAL_UP_VECTOR = COORDS[2]. -/
def ORIGINAL_UP_VECTOR : Vec3 := ⟨0, 1, 0⟩

/-- One step of the forEach loop inside `mainDirection`: the accumulator is
the pair (dist, main); the JS condition is `d < dist || !main`.  The JS
`v.distanceTo(c)` comparison is made on squared distances (monotone). -/
def mdStep (v : Vec3) (acc : ℚ × Option Vec3) (c : Vec3) : ℚ × Option Vec3 :=
  match acc.2 with
  | none => (v.distSq c, some c)
  | some _ => if v.distSq c < acc.1 then (v.distSq c, some c) else acc

/-- `mainDirection (v)` from index.js: fold over COORDS keeping the closest
axis; `dist` starts at 0 and `main` unset, so the first axis is always
taken, then an axis replaces the current one only when strictly closer
(first-found wins on ties).  The `getD` default is unreachable: COORDS is
nonempty, so the fold always produces `some`. -/
def mainDirection (v : Vec3) : Vec3 :=
  ((COORDS.foldl (mdStep v) (0, none)).2).getD ORIGINAL_UP_VECTOR

/-- Dirty 2D-canvas bounding box `this.ctxBox` with rational coordinates. -/
structure CtxBox where
  minX : ℚ
  minY : ℚ
  maxX : ℚ
  maxY : ℚ
deriving DecidableEq

/-- A 2D point with the fields read by `updateCanvasBoundingBox`. -/
structure Point2 where
  x : ℚ
  y : ℚ
deriving DecidableEq

/-- `updateCanvasBoundingBox (point)` from index.js: monotone min/max fold
of one point into the dirty bounding box. -/
def updateCanvasBoundingBox (b : CtxBox) (point : Point2) : CtxBox :=
  ⟨min b.minX point.x, min b.minY point.y, max b.maxX point.x, max b.maxY point.y⟩

/-- Folding a whole sequence of touched points into the dirty box. -/
def foldBox (b : CtxBox) (pts : List Point2) : CtxBox :=
  pts.foldl updateCanvasBoundingBox b

/-- `b2` extends `b1`: every side of `b2` is at least as far out, so `b2`
covers the rectangle of `b1` (the box never shrinks along a fold). -/
def boxExtends (b2 b1 : CtxBox) : Prop :=
  b2.minX ≤ b1.minX ∧ b2.minY ≤ b1.minY ∧ b1.maxX ≤ b2.maxX ∧ b1.maxY ≤ b2.maxY

/-- The box contains the point: minX ≤ x ≤ maxX and minY ≤ y ≤ maxY. -/
def containsPoint (b : CtxBox) (p : Point2) : Prop :=
  b.minX ≤ p.x ∧ p.x ≤ b.maxX ∧ b.minY ≤ p.y ∧ p.y ≤ b.maxY

/-- Orientation-changing operations recorded on a THREE.Object3D.  A
`lookAt` overwrites the node's quaternion outright, so it resets the
recorded history; `rotateOnAxis` composes onto it.  The up vector in force
and the target determine the lookAt quaternion (the ScaleRotate nodes'
own position is always the origin). -/
inductive OrientOp where
  | look (up target : Vec3)
  | rotate (axis : Vec3) (angleCoeffOfPi : ℚ)
deriving DecidableEq

/-- State of a ScaleRotate node (`s_scaleRotate` / `s_h_scaleRotate`):
scale, up vector, and the orientation history of its quaternion. -/
structure SRNode where
  scale : Vec3
  up : Vec3
  orient : List OrientOp
deriving DecidableEq

/-- Object3D.scale.set(s, s, s). -/
def SRNode.setScale (n : SRNode) (s : ℚ) : SRNode := { n with scale := ⟨s, s, s⟩ }

/-- Object3D.up.copy(u). -/
def SRNode.setUp (n : SRNode) (u : Vec3) : SRNode := { n with up := u }

/-- Object3D.lookAt(target): sets the quaternion from the lookAt matrix
built from the node position (always the origin here), the target and the
current up vector — previous orientation is discarded. -/
def SRNode.lookAt (n : SRNode) (target : Vec3) : SRNode :=
  { n with orient := [OrientOp.look n.up target] }

/-- Object3D.rotateOnAxis(axis, angle): composes one more rotation onto the
current quaternion. -/
def SRNode.rotateOnAxis (n : SRNode) (axis : Vec3) (angle : ℚ) : SRNode :=
  { n with orient := n.orient ++ [OrientOp.rotate axis angle] }

/-- State of a Translate node (`s_translate` / `s_h_translate`). -/
structure TNode where
  position : Vec3
deriving DecidableEq

/-- The three cameras of the viewport; `s_camera` is one of the first two. -/
inductive CamId where
  | pCam
  | oCam
  | oCamZoom
deriving DecidableEq

/-- The geometry data of a mesh payload read by `changeMesh`: whether the
geometry is a THREE.BufferGeometry (octree built only then), its bounding
sphere, and the payload's `up` and `front` vectors. -/
structure MeshPayload where
  bufferGeometry : Bool
  boundingSphereRadius : ℚ
  boundingSphereCenter : Vec3
  up : Vec3
  front : Vec3
deriving DecidableEq

/-- The viewport fields touched by the operations under study.
`pipVisible` models `pipCanvas.style.display`: `true` for the JS value
`null` (decoration shown), `false` for the string value none (hidden).
`renderRequests` counts the `this.update()` calls the operations make;
whether such a request actually renders is modelled by `update` below. -/
structure ViewportState where
  upVector : Vec3
  s_scaleRotate : SRNode
  s_h_scaleRotate : SRNode
  s_translate : TNode
  s_h_translate : TNode
  mesh : Option MeshPayload
  octree : Bool
  meshScale : ℚ
  camera : CamId
  pipVisible : Bool
  pipSubscribed : Bool
  showConnectivity : Bool
  renderRequests : Nat
  ctxBox : CtxBox
deriving DecidableEq

/-- The axis chosen by the `for (let i = 0; i < 5; i += 2)` loop in
`pointUp`: axis is set to COORDS[i] for i = 0, 2, 4 in turn and the loop
breaks on the first zero dot product; if no dot product is zero the loop
ends with axis = COORDS[4]. -/
def chooseAxis (s : Vec3) : Vec3 :=
  if s.dot ⟨1, 0, 0⟩ = 0 then ⟨1, 0, 0⟩
  else if s.dot ⟨0, 1, 0⟩ = 0 then ⟨0, 1, 0⟩
  else ⟨0, 0, 1⟩

/-- `pointUp (v)` from index.js (there wrapped in atomic.atomicOperation,
which only affects render batching, not the scene mutation).  The source
takes `v.clone().normalize()` first; normalising rescales `v` by the
positive scalar 1/|v| and the nearest-axis search is invariant under
positive rescaling (theorem `mainDirection_smul` below), so the model
applies `mainDirection` to `v` directly.  The JS reference comparison
`newUpVector === this._upVector` is value equality here: both sides are
always elements of COORDS, which are six pairwise distinct values backed
by the same six objects in the source.  The `s.length() === 0` test is
made on the squared length. -/
def pointUp (v : Vec3) (st : ViewportState) : ViewportState :=
  if mainDirection v = st.upVector then st
  else
    let s := Vec3.add (mainDirection v) st.upVector
    let axis := chooseAxis s
    let angle : ℚ :=
      if s.lengthSq = 0 then -1
      else (s.add axis).x * (s.add axis).y * (s.add axis).z / 2
    { st with
      upVector := mainDirection v
      s_scaleRotate := st.s_scaleRotate.rotateOnAxis axis angle
      s_h_scaleRotate := st.s_h_scaleRotate.rotateOnAxis axis angle }

/-- `removeMeshIfPresent ()` from index.js: drops `this.mesh` and the
octree when a mesh is attached. -/
def removeMeshIfPresent (st : ViewportState) : ViewportState :=
  if st.mesh = none then st else { st with mesh := none, octree := false }

/-- `changeMesh ()` from index.js.  The payload argument stands for the
`this.model.mesh()` read; `null` is `none`.  On a payload: build the
octree for BufferGeometry meshes, set the normalisation scale
1/boundingSphereRadius and the up/front orientation on both ScaleRotate
nodes, set the negated bounding-sphere centre on both Translate nodes and
request a render. -/
def changeMesh (meshPayload : Option MeshPayload) (st : ViewportState) : ViewportState :=
  let st0 := removeMeshIfPresent st
  match meshPayload with
  | none => st0
  | some p =>
    { st0 with
      mesh := some p
      octree := p.bufferGeometry
      meshScale := p.boundingSphereRadius
      s_scaleRotate :=
        ((st0.s_scaleRotate.setScale (1 / p.boundingSphereRadius)).setUp p.up).lookAt p.front
      s_h_scaleRotate :=
        ((st0.s_h_scaleRotate.setScale (1 / p.boundingSphereRadius)).setUp p.up).lookAt p.front
      s_translate := ⟨p.boundingSphereCenter.neg⟩
      s_h_translate := ⟨p.boundingSphereCenter.neg⟩
      renderRequests := st0.renderRequests + 1 }

/-- The two scenes rendered by `update`. -/
inductive SceneId where
  | scene
  | sceneHelpers
deriving DecidableEq

/-- One call on `this.renderer` during `update`, in call order. -/
inductive RAct where
  | setViewport (x y w h : ℚ)
  | setScissor (x y w h : ℚ)
  | enableScissorTest
  | clear
  | clearDepth
  | render (s : SceneId) (cam : CamId)
  | setClearColor (colour : Nat)
deriving DecidableEq

/-- CLEAR_COLOUR = 0xEEEEEE. -/
def CLEAR_COLOUR : Nat := 0xEEEEEE

/-- CLEAR_COLOUR_PIP = 0xCCCCCC. -/
def CLEAR_COLOUR_PIP : Nat := 0xCCCCCC

/-- PIP_WIDTH = 300 (rational, it enters rational arithmetic). -/
def PIP_WIDTH : ℚ := 300

/-- PIP_HEIGHT = 300. -/
def PIP_HEIGHT : ℚ := 300

/-- The PIP rectangle returned by `pipBounds ()`. -/
structure PipRect where
  x : ℚ
  y : ℚ
  width : ℚ
  height : ℚ
deriving DecidableEq

/-- `pipBounds ()` from index.js: PIP-sized rectangle anchored at the
bottom-right corner of a w-by-h canvas. -/
def pipBounds (w h : ℚ) : PipRect :=
  ⟨w - PIP_WIDTH, h - PIP_HEIGHT, PIP_WIDTH, PIP_HEIGHT⟩

/-- Step 1 of `update`: the primary pass (full-canvas viewport/scissor,
clear, render the scene with the active camera, then the depth-clear +
helper-scene pass when connectivity is shown). -/
def mainPassActs (cam : CamId) (w h : ℚ) (conn : Bool) : List RAct :=
  [RAct.setViewport 0 0 w h, RAct.setScissor 0 0 w h, RAct.enableScissorTest,
   RAct.clear, RAct.render SceneId.scene cam] ++
  (if conn then [RAct.clearDepth, RAct.render SceneId.sceneHelpers cam] else [])

/-- Step 2 of `update`: the PIP pass (PIP clear colour, viewport/scissor to
the pipBounds rectangle, clear, render with the dedicated zoom camera,
optional connectivity pass, main clear colour restored). -/
def pipPassActs (w h : ℚ) (conn : Bool) : List RAct :=
  [RAct.setClearColor CLEAR_COLOUR_PIP,
   RAct.setViewport (pipBounds w h).x (pipBounds w h).y (pipBounds w h).width (pipBounds w h).height,
   RAct.setScissor (pipBounds w h).x (pipBounds w h).y (pipBounds w h).width (pipBounds w h).height,
   RAct.enableScissorTest, RAct.clear, RAct.render SceneId.scene CamId.oCamZoom] ++
  (if conn then [RAct.clearDepth, RAct.render SceneId.sceneHelpers CamId.oCamZoom] else []) ++
  [RAct.setClearColor CLEAR_COLOUR]

/-- `update ()` from index.js as the trace of renderer calls it performs:
empty when `this.renderer` is unset or `atomic.atomicOperationUnderway()`
(the depth counter is positive); otherwise the primary pass followed, in
orthographic mode only, by the PIP pass.  `w`/`h` stand for the
`this.width()`/`this.height()` DOM reads. -/
def update (hasRenderer : Bool) (depth : Nat) (st : ViewportState) (w h : ℚ) : List RAct :=
  if hasRenderer = false then []
  else if 0 < depth then []
  else
    mainPassActs st.camera w h st.showConnectivity ++
      (if st.camera = CamId.oCam then pipPassActs w h st.showConnectivity else [])

/-- `clearCanvas ()` effect on the tracked state: the 2D clearRect touches
only the canvas surface; the dirty box is reset to its sentinel. -/
def clearCanvas (st : ViewportState) : ViewportState :=
  { st with ctxBox := ⟨999999, 999999, 0, 0⟩ }

/-- `toggleCamera ()` from index.js.  From perspective: subscribe to the
camera controller's changePip notifications, switch to the main
orthographic camera, and set `pipCanvas.style.display` to the JS value
`null` (decoration becomes visible).  From orthographic: unsubscribe,
switch back to the perspective camera, set display to none (hidden).
Then clear the canvas and request a render. -/
def toggleCamera (st : ViewportState) : ViewportState :=
  let st1 :=
    if st.camera = CamId.pCam then
      { st with pipSubscribed := true, camera := CamId.oCam, pipVisible := true }
    else
      { st with pipSubscribed := false, camera := CamId.pCam, pipVisible := false }
  { clearCanvas st1 with renderRequests := st1.renderRequests + 1 }

/-- Number of renders a single `update ()` invocation performs: one when
the trace is nonempty, zero when it is suppressed. -/
def execRender (hasRenderer : Bool) (depth : Nat) (st : ViewportState) (w h : ℚ) : Nat :=
  if update hasRenderer depth st w h = [] then 0 else 1

/-- `batchHandler (dispatcher)` from index.js: on a change:ATOMIC_OPERATION
notification, call `this.update()` exactly when
`dispatcher.atomicOperationFinished()` holds. -/
def batchHandler (atomicOperationFinished : Bool) (hasRenderer : Bool) (depth : Nat)
    (st : ViewportState) (w h : ℚ) : Nat :=
  if atomicOperationFinished then execRender hasRenderer depth st w h else 0

/-- Gate state: the atomic-operation depth counter together with the count
of renders actually executed. -/
structure GateState where
  depth : Nat
  renders : Nat
deriving DecidableEq

/-- Events driving the atomic-operation gate: opening a scope, closing a
scope, and an explicit render request (a direct `update ()` call). -/
inductive BatchEv where
  | openA
  | closeA
  | reqRender
deriving DecidableEq

/-- Modelled from the spec: the atomic module (model/atomic) is not under
src/ — only its callers are.  Per the spec it keeps a process-wide depth
counter (`runAtomic` increments, executes, decrements on all exit paths),
`atomicOperationUnderway` is depth > 0, and a batch-finished
notification fires when the outermost scope closes (depth reaches 0),
with `atomicOperationFinished()` true, upon which the viewport's
`batchHandler` (embedded above from index.js) runs.  Opening a scope
fires the notification with finished = false, so `batchHandler` does
nothing then. -/
def atomicStep (hasRenderer : Bool) (st : ViewportState) (w h : ℚ) (g : GateState) :
    BatchEv → GateState
  | BatchEv.openA => ⟨g.depth + 1, g.renders⟩
  | BatchEv.closeA =>
      ⟨g.depth - 1,
       g.renders +
         (if g.depth - 1 = 0 then batchHandler true hasRenderer (g.depth - 1) st w h else 0)⟩
  | BatchEv.reqRender => ⟨g.depth, g.renders + execRender hasRenderer g.depth st w h⟩

/-- An intersection result: only the `distance` field is read by the
viewport code under study. -/
structure Intersection where
  distance : ℚ
deriving DecidableEq

/-- The polymorphic `object` argument of `getIntersects`: JS null, a single
Object3D (objects abstracted to ids), or an Array of Object3D. -/
inductive Target where
  | nullT
  | objT (o : Nat)
  | arrayT (os : List Nat)
deriving DecidableEq

/-- THREE.Raycaster state set by `this.ray.set(origin, direction)`.  The
source normalises the perspective direction vector; the model stores the
unnormalised vector, a positive rescaling that leaves the ray's origin
and line of travel unchanged. -/
structure Ray where
  origin : Vec3
  direction : Vec3
deriving DecidableEq

/-- The guard `object === null || object.length === 0`: a single Object3D
has no `length` property (undefined === 0 is false), so only JS null and
an empty Array pass. -/
def targetGuard : Target → Bool
  | Target.nullT => true
  | Target.arrayT os => os.isEmpty
  | Target.objT _ => false

/-- The normalised-device-coordinates vector
`new THREE.Vector3((x / width) * 2 - 1, -(y / height) * 2 + 1, z)`
(z is then overwritten by setZ: 0.5 for perspective, -1 for
orthographic). -/
def ndcVec (w h x y z : ℚ) : Vec3 := ⟨x / w * 2 - 1, -(y / h) * 2 + 1, z⟩

/-- The picking environment of `getIntersects`: the active camera and its
derived data, plus the external THREE/octree intersection routines, which
are abstract parameters here.  `unproject` is `Vector3.unproject` through
the active camera; `camWorldMinusZ` is
`(0,0,-1).transformDirection(s_camera.matrixWorld)`. -/
structure PickCtx where
  activeCam : CamId
  width : ℚ
  height : ℚ
  unproject : Vec3 → Vec3
  camPos : Vec3
  camWorldMinusZ : Vec3
  meshId : Option Nat
  hasOctree : Bool
  octreeHits : Ray → List Intersection
  objectHits : Ray → Nat → List Intersection
  objectsHits : Ray → List Nat → List Intersection

/-- `getIntersects (x, y, object)` from index.js.  Returns the ray stored
into `this.ray` (none when the guard returns early, leaving it untouched)
together with the intersection list.  Perspective: ray from the camera
position through the point unprojected at z = 0.5.  Orthographic: ray
from the point unprojected at z = -1 along the camera's world -Z axis.
Dispatch: octree for the active mesh when an octree exists, otherwise
intersectObjects for arrays and intersectObject for single objects. -/
def getIntersects (ctx : PickCtx) (x y : ℚ) (object : Target) :
    Option Ray × List Intersection :=
  if targetGuard object then (none, [])
  else
    let ray : Ray :=
      if ctx.activeCam = CamId.pCam then
        ⟨ctx.camPos, (ctx.unproject (ndcVec ctx.width ctx.height x y (1/2))).sub ctx.camPos⟩
      else
        ⟨ctx.unproject (ndcVec ctx.width ctx.height x y (-1)), ctx.camWorldMinusZ⟩
    let hits :=
      match object with
      | Target.objT o =>
          if ctx.meshId = some o && ctx.hasOctree then ctx.octreeHits ray
          else ctx.objectHits ray o
      | Target.arrayT os => ctx.objectsHits ray os
      | Target.nullT => []
    (some ray, hits)

/-- A landmark view: its THREE symbol may be absent. -/
structure LmView where
  symbol : Option Nat
deriving DecidableEq

/-- `lmViewVisible (lmView)` from index.js: absent symbol means not
visible, no intersection test is made (the second component counts the
`getIntersects` calls performed).  With a symbol: intersect the mesh and
the landmark at the symbol's screen position and report visible when no
mesh hit exists or the first mesh hit is farther than the first landmark
hit.  (On an empty landmark-hit list the source would fault reading
iLm[0]; the model reads a default — that branch is outside the claims.) -/
def lmViewVisible (ctx : PickCtx) (lmToScreen : Nat → ℚ × ℚ) (lmView : LmView) :
    Bool × Nat :=
  match lmView.symbol with
  | none => (false, 0)
  | some sym =>
    let screenCoords := lmToScreen sym
    let meshTarget := match ctx.meshId with
      | some m => Target.objT m
      | none => Target.nullT
    let iMesh := (getIntersects ctx screenCoords.1 screenCoords.2 meshTarget).2
    let iLm := (getIntersects ctx screenCoords.1 screenCoords.2 (Target.objT sym)).2
    (iMesh.isEmpty ||
       decide ((iLm.headD ⟨0⟩).distance < (iMesh.headD ⟨0⟩).distance), 2)

/-- Scene-graph operations of claim C4: a mesh change (with the payload the
model returns) or an up-vector reorientation. -/
inductive SceneOp where
  | change (payload : Option MeshPayload)
  | point (v : Vec3)

/-- Apply one scene-graph operation. -/
def applyOp (st : ViewportState) : SceneOp → ViewportState
  | SceneOp.change p => changeMesh p st
  | SceneOp.point v => pointUp v st

/-- Apply a sequence of scene-graph operations. -/
def applyOps (st : ViewportState) (ops : List SceneOp) : ViewportState :=
  ops.foldl applyOp st

/-- The helper hierarchy mirrors the primary one: the helper ScaleRotate
node agrees on scale, up and orientation history, and the helper
Translate node agrees on position. -/
def mirrored (st : ViewportState) : Prop :=
  st.s_h_scaleRotate = st.s_scaleRotate ∧ st.s_h_translate = st.s_translate

/-- The viewport state right after scene-graph construction in
`initialize`: fresh Object3D nodes (unit scale, default up (0,1,0), no
rotations, zero positions), `_upVector` = ORIGINAL_UP_VECTOR, no mesh,
MESH_SCALE = 1.0, the perspective camera active, the PIP decoration
hidden, connectivity shown, and the sentinel dirty box. -/
def initState : ViewportState where
  upVector := ORIGINAL_UP_VECTOR
  s_scaleRotate := ⟨⟨1, 1, 1⟩, ⟨0, 1, 0⟩, []⟩
  s_h_scaleRotate := ⟨⟨1, 1, 1⟩, ⟨0, 1, 0⟩, []⟩
  s_translate := ⟨⟨0, 0, 0⟩⟩
  s_h_translate := ⟨⟨0, 0, 0⟩⟩
  mesh := none
  octree := false
  meshScale := 1
  camera := CamId.pCam
  pipVisible := false
  pipSubscribed := false
  showConnectivity := true
  renderRequests := 0
  ctxBox := ⟨999999, 999999, 0, 0⟩

/-- A concrete picking environment used by witnesses: main orthographic
camera active, identity unprojection, trivial intersection routines. -/
def samplePickCtx : PickCtx where
  activeCam := CamId.oCam
  width := 800
  height := 600
  unproject := fun p => p
  camPos := ⟨0, 0, 0⟩
  camWorldMinusZ := ⟨0, 0, -1⟩
  meshId := none
  hasOctree := false
  octreeHits := fun _ => []
  objectHits := fun _ _ => []
  objectsHits := fun _ _ => []

/-- The some-accumulator branch of `mdStep`, as an if. -/
lemma mdStep_some (v : Vec3) (q : ℚ) (b c : Vec3) :
    mdStep v (q, some b) c =
      if v.distSq c < q then (v.distSq c, some c) else (q, some b) := rfl

/-- The fold behind `mainDirection` keeps the incoming axis or picks one of
the axes it visits. -/
lemma mdFold_mem (v : Vec3) :
    ∀ (cs : List Vec3) (q : ℚ) (b : Vec3),
      (cs.foldl (mdStep v) (q, some b)).2 = some b ∨
        ∃ e ∈ cs, (cs.foldl (mdStep v) (q, some b)).2 = some e := by
  intro cs
  induction cs with
  | nil => intro q b; exact Or.inl rfl
  | cons e cs ih =>
    intro q b
    rw [List.foldl_cons, mdStep_some]
    by_cases h : v.distSq e < q
    · rw [if_pos h]
      rcases ih (v.distSq e) e with h1 | ⟨e2, he2, h2⟩
      · exact Or.inr ⟨e, List.mem_cons_self .., h1⟩
      · exact Or.inr ⟨e2, List.mem_cons_of_mem _ he2, h2⟩
    · rw [if_neg h]
      rcases ih q b with h1 | ⟨e2, he2, h2⟩
      · exact Or.inl h1
      · exact Or.inr ⟨e2, List.mem_cons_of_mem _ he2, h2⟩

/-- The nearest axis returned by `mainDirection` is always one of the six
canonical COORDS vectors. -/
lemma mainDirection_mem (v : Vec3) : mainDirection v ∈ COORDS := by
  have h0 : COORDS.foldl (mdStep v) (0, none) =
      ([⟨-1, 0, 0⟩, ⟨0, 1, 0⟩, ⟨0, -1, 0⟩, ⟨0, 0, 1⟩, ⟨0, 0, -1⟩] : List Vec3).foldl
        (mdStep v) (v.distSq ⟨1, 0, 0⟩, some ⟨1, 0, 0⟩) := rfl
  have hco : COORDS = (⟨1, 0, 0⟩ : Vec3) ::
      [⟨-1, 0, 0⟩, ⟨0, 1, 0⟩, ⟨0, -1, 0⟩, ⟨0, 0, 1⟩, ⟨0, 0, -1⟩] := rfl
  unfold mainDirection
  rw [h0]
  rcases mdFold_mem v _ _ _ with h | ⟨e, he, h⟩
  · rw [h]
    simp only [Option.getD_some]
    rw [hco]
    exact List.mem_cons_self ..
  · rw [h]
    simp only [Option.getD_some]
    rw [hco]
    exact List.mem_cons_of_mem _ he

/-- Expansion of the squared distance in dot products. -/
lemma distSq_expand (u e : Vec3) :
    u.distSq e = u.lengthSq - 2 * u.dot e + e.lengthSq := by
  simp [Vec3.distSq, Vec3.lengthSq, Vec3.dot, Vec3.sub]
  ring

/-- Dot product scales with a scalar multiple on the left. -/
lemma dot_smul_left (c : ℚ) (v e : Vec3) :
    (Vec3.smul c v).dot e = c * v.dot e := by
  simp [Vec3.dot, Vec3.smul]
  ring

/-- Between unit vectors, distance comparison against a positively rescaled
point agrees with the comparison against the point itself: the nearest-axis
ranking is scale invariant. -/
lemma distSq_smul_lt {c : ℚ} (hc : 0 < c) (v a b : Vec3)
    (ha : a.lengthSq = 1) (hb : b.lengthSq = 1) :
    ((Vec3.smul c v).distSq a < (Vec3.smul c v).distSq b ↔
      v.distSq a < v.distSq b) := by
  rw [distSq_expand, distSq_expand, distSq_expand, distSq_expand, ha, hb,
      dot_smul_left, dot_smul_left]
  constructor <;> intro h
  · have h2 : c * v.dot b < c * v.dot a := by linarith
    have h3 := (mul_lt_mul_left hc).1 h2
    linarith
  · have h2 : v.dot b < v.dot a := by linarith
    have h3 := (mul_lt_mul_left hc).2 h2
    linarith

/-- The fold behind `mainDirection` selects the same axis for `v` and any
positive rescaling of `v`, as long as all candidates are unit vectors. -/
lemma mdFold_smul {c : ℚ} (hc : 0 < c) (v : Vec3) :
    ∀ (cs : List Vec3) (b : Vec3), (∀ e ∈ cs, e.lengthSq = 1) → b.lengthSq = 1 →
      (cs.foldl (mdStep (Vec3.smul c v)) ((Vec3.smul c v).distSq b, some b)).2 =
        (cs.foldl (mdStep v) (v.distSq b, some b)).2 := by
  intro cs
  induction cs with
  | nil => intro b _ _; rfl
  | cons e cs ih =>
    intro b hcs hb
    have he : e.lengthSq = 1 := hcs e (List.mem_cons_self ..)
    have hcs2 : ∀ e2 ∈ cs, e2.lengthSq = 1 :=
      fun e2 h2 => hcs e2 (List.mem_cons_of_mem _ h2)
    rw [List.foldl_cons, List.foldl_cons, mdStep_some, mdStep_some]
    by_cases h : v.distSq e < v.distSq b
    · rw [if_pos ((distSq_smul_lt hc v e b he hb).2 h), if_pos h]
      exact ih e hcs2 he
    · rw [if_neg (fun hcon => h ((distSq_smul_lt hc v e b he hb).1 hcon)), if_neg h]
      exact ih b hcs2 hb

/-- Positive rescaling of the input does not change the axis `mainDirection`
selects.  The source applies `mainDirection` to `v.clone().normalize()`,
a positive rescaling of `v`, so the model's direct application of
`mainDirection` to `v` is faithful. -/
theorem mainDirection_smul {c : ℚ} (hc : 0 < c) (v : Vec3) :
    mainDirection (Vec3.smul c v) = mainDirection v := by
  have h1 : COORDS.foldl (mdStep (Vec3.smul c v)) (0, none) =
      ([⟨-1, 0, 0⟩, ⟨0, 1, 0⟩, ⟨0, -1, 0⟩, ⟨0, 0, 1⟩, ⟨0, 0, -1⟩] : List Vec3).foldl
        (mdStep (Vec3.smul c v)) ((Vec3.smul c v).distSq ⟨1, 0, 0⟩, some ⟨1, 0, 0⟩) := rfl
  have h2 : COORDS.foldl (mdStep v) (0, none) =
      ([⟨-1, 0, 0⟩, ⟨0, 1, 0⟩, ⟨0, -1, 0⟩, ⟨0, 0, 1⟩, ⟨0, 0, -1⟩] : List Vec3).foldl
        (mdStep v) (v.distSq ⟨1, 0, 0⟩, some ⟨1, 0, 0⟩) := rfl
  have h3 := mdFold_smul hc v
    [⟨-1, 0, 0⟩, ⟨0, 1, 0⟩, ⟨0, -1, 0⟩, ⟨0, 0, 1⟩, ⟨0, 0, -1⟩] ⟨1, 0, 0⟩
    (by intro e he; fin_cases he <;> norm_num [Vec3.lengthSq, Vec3.dot])
    (by norm_num [Vec3.lengthSq, Vec3.dot])
  unfold mainDirection
  rw [h1, h2, h3]

/-- When the nearest axis already matches the stored up vector, `pointUp`
returns without touching the state. -/
lemma pointUp_noop (v : Vec3) (st : ViewportState)
    (h : mainDirection v = st.upVector) : pointUp v st = st := by
  unfold pointUp
  rw [if_pos h]

/-- After any `pointUp v` call the stored up vector is `mainDirection v`. -/
lemma pointUp_upVector (v : Vec3) (st : ViewportState) :
    (pointUp v st).upVector = mainDirection v := by
  unfold pointUp
  by_cases h : mainDirection v = st.upVector
  · rw [if_pos h]; exact h.symm
  · rw [if_neg h]

/-- C1: for every target vector v, `pointUp` leaves the stored up state
equal to one of the six canonical COORDS axis vectors, and a second call
with the same target is a complete no-op: it returns the state of the
first call unchanged (in particular neither the stored up vector nor the
rotation histories of the two ScaleRotate nodes change). -/
theorem pointUp_canonical_up_and_idempotent (v : Vec3) (st : ViewportState) :
    (pointUp v st).upVector ∈ COORDS ∧ pointUp v (pointUp v st) = pointUp v st := by
  constructor
  · rw [pointUp_upVector]
    exact mainDirection_mem v
  · exact pointUp_noop v _ (pointUp_upVector v st).symm

/-- C5: from stored up (0,1,0), reorienting to target (0,0,1) applies
exactly one rotation, about the X axis (1,0,0), of +90 degrees (angle
coefficient 1/2 of pi), to both ScaleRotate nodes, and stores up (0,0,1). -/
theorem pointUp_y_to_z (st : ViewportState) (h : st.upVector = ⟨0, 1, 0⟩) :
    pointUp ⟨0, 0, 1⟩ st =
      { st with
        upVector := ⟨0, 0, 1⟩
        s_scaleRotate := st.s_scaleRotate.rotateOnAxis ⟨1, 0, 0⟩ (1/2)
        s_h_scaleRotate := st.s_h_scaleRotate.rotateOnAxis ⟨1, 0, 0⟩ (1/2) } := by
  have hmd : mainDirection ⟨0, 0, 1⟩ = ⟨0, 0, 1⟩ := by
    norm_num [mainDirection, COORDS, mdStep, Vec3.distSq, Vec3.sub,
      Vec3.lengthSq, Vec3.dot]
  unfold pointUp
  rw [hmd, h]
  rw [if_neg (by simp : ¬((⟨0, 0, 1⟩ : Vec3) = ⟨0, 1, 0⟩))]
  norm_num [Vec3.add, Vec3.lengthSq, Vec3.dot, chooseAxis]

/-- Witness for C5 at the initial viewport state. -/
theorem pointUp_y_to_z_witness :
    initState.upVector = ⟨0, 1, 0⟩ ∧
    pointUp ⟨0, 0, 1⟩ initState =
      { initState with
        upVector := ⟨0, 0, 1⟩
        s_scaleRotate := initState.s_scaleRotate.rotateOnAxis ⟨1, 0, 0⟩ (1/2)
        s_h_scaleRotate := initState.s_h_scaleRotate.rotateOnAxis ⟨1, 0, 0⟩ (1/2) } :=
  ⟨rfl, pointUp_y_to_z initState rfl⟩

/-- C3: for every non-null mesh payload, `changeMesh` sets the
normalisation scale of both ScaleRotate nodes to 1/boundingSphereRadius
on each axis, the position of both Translate nodes to the negated
bounding-sphere centre, and requests a render; for a payload of radius 2
centred at (1,0,0) the scale is (1/2,1/2,1/2) and the translation
(-1,0,0). -/
theorem changeMesh_normalizes (st : ViewportState) (p : MeshPayload) :
    (changeMesh (some p) st).s_scaleRotate.scale =
      ⟨1 / p.boundingSphereRadius, 1 / p.boundingSphereRadius, 1 / p.boundingSphereRadius⟩ ∧
    (changeMesh (some p) st).s_h_scaleRotate.scale =
      ⟨1 / p.boundingSphereRadius, 1 / p.boundingSphereRadius, 1 / p.boundingSphereRadius⟩ ∧
    (changeMesh (some p) st).s_translate.position = p.boundingSphereCenter.neg ∧
    (changeMesh (some p) st).s_h_translate.position = p.boundingSphereCenter.neg ∧
    (changeMesh (some p) st).renderRequests = st.renderRequests + 1 ∧
    (changeMesh (some ⟨p.bufferGeometry, 2, ⟨1, 0, 0⟩, p.up, p.front⟩) st).s_scaleRotate.scale =
      ⟨1/2, 1/2, 1/2⟩ ∧
    (changeMesh (some ⟨p.bufferGeometry, 2, ⟨1, 0, 0⟩, p.up, p.front⟩) st).s_translate.position =
      ⟨-1, 0, 0⟩ := by
  unfold changeMesh removeMeshIfPresent
  by_cases hm : st.mesh = none <;>
    simp [hm, SRNode.setScale, SRNode.setUp, SRNode.lookAt, Vec3.neg]

/-- One scene-graph operation keeps the helper hierarchy in lock-step with
the primary hierarchy. -/
lemma mirrored_applyOp (st : ViewportState) (op : SceneOp) (h : mirrored st) :
    mirrored (applyOp st op) := by
  obtain ⟨h1, h2⟩ := h
  cases op with
  | change p =>
    cases p with
    | none =>
      unfold applyOp changeMesh removeMeshIfPresent mirrored
      by_cases hm : st.mesh = none <;> simp [hm] <;> exact ⟨h1, h2⟩
    | some p =>
      unfold applyOp changeMesh removeMeshIfPresent mirrored
      by_cases hm : st.mesh = none <;> simp [hm, h1]
  | point v =>
    unfold applyOp pointUp mirrored
    by_cases hc : mainDirection v = st.upVector <;> simp [hc, h1, h2]

/-- C4: after any sequence of `changeMesh` and `pointUp` calls from the
initial state, the helper ScaleRotate node carries the same scale, up
vector and orientation history (lookAt orientation plus accumulated
rotations) as the primary ScaleRotate node, and the helper Translate node
the same position as the primary Translate node. -/
theorem helper_mirrors_primary (ops : List SceneOp) :
    (applyOps initState ops).s_h_scaleRotate = (applyOps initState ops).s_scaleRotate ∧
    (applyOps initState ops).s_h_translate.position =
      (applyOps initState ops).s_translate.position := by
  have key : ∀ (l : List SceneOp) (st : ViewportState),
      mirrored st → mirrored (applyOps st l) := by
    intro l
    induction l with
    | nil => intro st h; exact h
    | cons op l ih => intro st h; exact ih _ (mirrored_applyOp st op h)
  have h := key ops initState ⟨rfl, rfl⟩
  exact ⟨h.1, by rw [h.2]⟩

/-- While the depth counter is positive, `update` renders nothing. -/
lemma update_suppressed (d : Nat) (hd : 0 < d) (st : ViewportState) (w h : ℚ) :
    update true d st w h = [] := by
  simp [update, hd]

/-- With a renderer attached and no atomic operation underway, `update`
always performs the primary pass, so its trace is nonempty. -/
lemma update_live_ne_nil (st : ViewportState) (w h : ℚ) :
    update true 0 st w h ≠ [] := by
  simp [update, mainPassActs]

/-- C2: while the atomic-operation depth counter is positive, a render
request is a no-op that performs no rendering (the trace of renderer calls
is empty and the render count is unchanged); when the outermost atomic
operation closes (depth goes from 1 to 0), the batch-finished notification
runs batchHandler, which triggers exactly one render. -/
theorem atomic_gate_render_batching (st : ViewportState) (w h : ℚ) (g : GateState) :
    (0 < g.depth →
      update true g.depth st w h = [] ∧
      atomicStep true st w h g BatchEv.reqRender = g) ∧
    (g.depth = 1 →
      atomicStep true st w h g BatchEv.closeA = ⟨0, g.renders + 1⟩) := by
  obtain ⟨d, r⟩ := g
  constructor
  · intro hd
    have hsup := update_suppressed d hd st w h
    exact ⟨hsup, by simp [atomicStep, execRender, hsup]⟩
  · intro hd
    have hd2 : d = 1 := hd
    subst hd2
    simp [atomicStep, batchHandler, execRender, update_live_ne_nil]

/-- Witness for C2 at depth 1. -/
theorem atomic_gate_render_batching_witness :
    update true 1 initState 800 600 = [] ∧
    atomicStep true initState 800 600 ⟨1, 5⟩ BatchEv.reqRender = ⟨1, 5⟩ ∧
    atomicStep true initState 800 600 ⟨1, 5⟩ BatchEv.closeA = ⟨0, 6⟩ := by
  have h := atomic_gate_render_batching initState 800 600 ⟨1, 5⟩
  have h1 := h.1 (by decide)
  exact ⟨h1.1, h1.2, h.2 rfl⟩

/-- C6: toggling the camera from perspective switches to the main
orthographic camera, makes the PIP decoration visible, subscribes to the
camera controller's changePip notifications, and the next executed update
performs the primary pass followed by the PIP pass (PIP-rectangle
viewport/scissor at the bottom-right, PIP clear colour, render with the
dedicated zoom camera, main clear colour restored — all inside
pipPassActs); toggling back restores the perspective camera, hides the
decoration and unsubscribes; and whenever the active camera is the
perspective one, update performs only the primary pass and in particular
never renders with the zoom camera. -/
theorem toggleCamera_pip_behaviour (st : ViewportState) (w h : ℚ)
    (hcam : st.camera = CamId.pCam) :
    (toggleCamera st).camera = CamId.oCam ∧
    (toggleCamera st).pipVisible = true ∧
    (toggleCamera st).pipSubscribed = true ∧
    update true 0 (toggleCamera st) w h =
      mainPassActs CamId.oCam w h st.showConnectivity ++
        pipPassActs w h st.showConnectivity ∧
    (toggleCamera (toggleCamera st)).camera = CamId.pCam ∧
    (toggleCamera (toggleCamera st)).pipVisible = false ∧
    (toggleCamera (toggleCamera st)).pipSubscribed = false ∧
    update true 0 st w h = mainPassActs CamId.pCam w h st.showConnectivity ∧
    RAct.render SceneId.scene CamId.oCamZoom ∉ update true 0 st w h := by
  refine ⟨?_, ?_, ?_, ?_, ?_, ?_, ?_, ?_, ?_⟩
  · simp [toggleCamera, clearCanvas, hcam]
  · simp [toggleCamera, clearCanvas, hcam]
  · simp [toggleCamera, clearCanvas, hcam]
  · simp [toggleCamera, clearCanvas, hcam, update]
  · simp [toggleCamera, clearCanvas, hcam]
  · simp [toggleCamera, clearCanvas, hcam]
  · simp [toggleCamera, clearCanvas, hcam]
  · simp [update, hcam]
  · by_cases hc : st.showConnectivity <;> simp [update, hcam, mainPassActs, hc]

/-- Witness for C6 at the initial state (perspective camera active,
connectivity shown). -/
theorem toggleCamera_pip_witness :
    initState.camera = CamId.pCam ∧
    (toggleCamera initState).camera = CamId.oCam ∧
    (toggleCamera initState).pipVisible = true ∧
    (toggleCamera initState).pipSubscribed = true ∧
    update true 0 (toggleCamera initState) 800 600 =
      mainPassActs CamId.oCam 800 600 true ++ pipPassActs 800 600 true ∧
    (toggleCamera (toggleCamera initState)).camera = CamId.pCam ∧
    (toggleCamera (toggleCamera initState)).pipVisible = false ∧
    update true 0 initState 800 600 = mainPassActs CamId.pCam 800 600 true ∧
    RAct.render SceneId.scene CamId.oCamZoom ∉ update true 0 initState 800 600 := by
  have h := toggleCamera_pip_behaviour initState 800 600 rfl
  exact ⟨rfl, h.1, h.2.1, h.2.2.1, h.2.2.2.1, h.2.2.2.2.1, h.2.2.2.2.2.1,
    h.2.2.2.2.2.2.2.1, h.2.2.2.2.2.2.2.2⟩

/-- The ray stored by `getIntersects` when the guard does not fire, by
active camera. -/
lemma getIntersects_ray (ctx : PickCtx) (x y : ℚ) (t : Target)
    (ht : targetGuard t = false) :
    (getIntersects ctx x y t).1 =
      some (if ctx.activeCam = CamId.pCam then
              ⟨ctx.camPos,
               (ctx.unproject (ndcVec ctx.width ctx.height x y (1/2))).sub ctx.camPos⟩
            else
              ⟨ctx.unproject (ndcVec ctx.width ctx.height x y (-1)),
               ctx.camWorldMinusZ⟩) := by
  unfold getIntersects
  rw [if_neg (by simp [ht])]

/-- C7: the picking ray follows the active camera.  Perspective: origin at
the camera position, direction through the point unprojected at mid-depth
z = 0.5.  Orthographic: origin at the point unprojected at near-plane
depth z = -1, direction the camera's local -Z axis in world space; for an
injective unprojection and a nondegenerate canvas, distinct screen points
then yield rays with the same direction (parallel) but distinct origins. -/
theorem getIntersects_ray_by_camera (ctx : PickCtx) (x y x2 y2 : ℚ) (t : Target)
    (ht : targetGuard t = false) :
    (ctx.activeCam = CamId.pCam →
      (getIntersects ctx x y t).1 =
        some ⟨ctx.camPos,
          (ctx.unproject (ndcVec ctx.width ctx.height x y (1/2))).sub ctx.camPos⟩) ∧
    (ctx.activeCam ≠ CamId.pCam →
      (getIntersects ctx x y t).1 =
        some ⟨ctx.unproject (ndcVec ctx.width ctx.height x y (-1)),
              ctx.camWorldMinusZ⟩ ∧
      (Function.Injective ctx.unproject → 0 < ctx.width → 0 < ctx.height →
        ¬(x = x2 ∧ y = y2) →
        (getIntersects ctx x2 y2 t).1 =
          some ⟨ctx.unproject (ndcVec ctx.width ctx.height x2 y2 (-1)),
                ctx.camWorldMinusZ⟩ ∧
        ctx.unproject (ndcVec ctx.width ctx.height x y (-1)) ≠
          ctx.unproject (ndcVec ctx.width ctx.height x2 y2 (-1)))) := by
  constructor
  · intro hcam
    rw [getIntersects_ray ctx x y t ht, if_pos hcam]
  · intro hcam
    refine ⟨by rw [getIntersects_ray ctx x y t ht, if_neg hcam], ?_⟩
    intro hinj hw hh hne
    refine ⟨by rw [getIntersects_ray ctx x2 y2 t ht, if_neg hcam], ?_⟩
    intro he
    apply hne
    have hnd := hinj he
    have hx := congrArg Vec3.x hnd
    have hy := congrArg Vec3.y hnd
    simp only [ndcVec] at hx hy
    have hw0 : ctx.width ≠ 0 := ne_of_gt hw
    have hh0 : ctx.height ≠ 0 := ne_of_gt hh
    constructor
    · field_simp at hx
      linarith
    · field_simp at hy
      linarith

/-- Witness for C7 in the sample orthographic picking environment. -/
theorem getIntersects_ray_witness :
    targetGuard (Target.objT 5) = false ∧
    samplePickCtx.activeCam ≠ CamId.pCam ∧
    (getIntersects samplePickCtx 0 0 (Target.objT 5)).1 =
      some ⟨⟨-1, 1, -1⟩, ⟨0, 0, -1⟩⟩ ∧
    (getIntersects samplePickCtx 800 600 (Target.objT 5)).1 =
      some ⟨⟨1, -1, -1⟩, ⟨0, 0, -1⟩⟩ ∧
    samplePickCtx.unproject (ndcVec samplePickCtx.width samplePickCtx.height 0 0 (-1)) ≠
      samplePickCtx.unproject (ndcVec samplePickCtx.width samplePickCtx.height 800 600 (-1)) := by
  have h := (getIntersects_ray_by_camera samplePickCtx 0 0 800 600 (Target.objT 5) rfl).2
    (by simp [samplePickCtx])
  have h2 := h.2 (fun a b hab => hab) (by norm_num [samplePickCtx])
    (by norm_num [samplePickCtx]) (by norm_num)
  refine ⟨rfl, by simp [samplePickCtx], ?_, ?_, h2.2⟩
  · rw [h.1]
    norm_num [samplePickCtx, ndcVec]
  · rw [h2.1]
    norm_num [samplePickCtx, ndcVec]

/-- Box ordering: `b2` extends `b1` when it is at least as large on every
side. -/
lemma boxExtends_refl (b : CtxBox) : boxExtends b b :=
  ⟨le_refl _, le_refl _, le_refl _, le_refl _⟩

/-- Transitivity of box extension. -/
lemma boxExtends_trans {a b c : CtxBox} (h1 : boxExtends a b) (h2 : boxExtends b c) :
    boxExtends a c :=
  ⟨le_trans h1.1 h2.1, le_trans h1.2.1 h2.2.1,
   le_trans h2.2.2.1 h1.2.2.1, le_trans h2.2.2.2 h1.2.2.2⟩

/-- One min/max fold never shrinks the box. -/
lemma expand_extends (b : CtxBox) (p : Point2) :
    boxExtends (updateCanvasBoundingBox b p) b :=
  ⟨min_le_left .., min_le_left .., le_max_left .., le_max_left ..⟩

/-- One min/max fold captures the folded point. -/
lemma expand_contains (b : CtxBox) (p : Point2) :
    containsPoint (updateCanvasBoundingBox b p) p :=
  ⟨min_le_right .., le_max_right .., min_le_right .., le_max_right ..⟩

/-- A larger box contains every point a smaller one contains. -/
lemma contains_mono {b1 b2 : CtxBox} {p : Point2} (h : boxExtends b2 b1)
    (hc : containsPoint b1 p) : containsPoint b2 p :=
  ⟨le_trans h.1 hc.1, le_trans hc.2.1 h.2.2.1,
   le_trans h.2.1 hc.2.2.1, le_trans hc.2.2.2 h.2.2.2⟩

/-- Folding a whole point sequence never shrinks the box. -/
lemma foldBox_extends (pts : List Point2) : ∀ b : CtxBox, boxExtends (foldBox b pts) b := by
  induction pts with
  | nil => intro b; exact boxExtends_refl b
  | cons p pts ih =>
    intro b
    exact boxExtends_trans (ih (updateCanvasBoundingBox b p)) (expand_extends b p)

/-- The folded box contains every folded point. -/
lemma foldBox_contains (pts : List Point2) :
    ∀ (b : CtxBox) (p : Point2), p ∈ pts → containsPoint (foldBox b pts) p := by
  induction pts with
  | nil => intro b p hp; cases hp
  | cons q pts ih =>
    intro b p hp
    rcases List.mem_cons.1 hp with h | h
    · subst h
      exact contains_mono (foldBox_extends pts (updateCanvasBoundingBox b p))
        (expand_contains b p)
    · exact ih (updateCanvasBoundingBox b q) p h

/-- Two consecutive folds commute (min/max are commutative in the folded
argument), which drives order independence. -/
lemma expand_comm (b : CtxBox) (p q : Point2) :
    updateCanvasBoundingBox (updateCanvasBoundingBox b p) q =
      updateCanvasBoundingBox (updateCanvasBoundingBox b q) p := by
  simp only [updateCanvasBoundingBox, CtxBox.mk.injEq]
  exact ⟨min_right_comm .., min_right_comm .., Max.right_comm .., Max.right_comm ..⟩

/-- Folding a permutation of the same point sequence yields the same box. -/
lemma foldBox_perm {l1 l2 : List Point2} (hp : l1.Perm l2) :
    ∀ b : CtxBox, foldBox b l1 = foldBox b l2 := by
  induction hp with
  | nil => intro b; rfl
  | cons x _ ih =>
    intro b
    simp only [foldBox, List.foldl_cons]
    exact ih _
  | swap x y l =>
    intro b
    simp only [foldBox, List.foldl_cons]
    rw [expand_comm]
  | trans _ _ ih1 ih2 =>
    intro b
    rw [ih1 b, ih2 b]

/-- C8: the dirty bounding box folded over any point sequence contains
every folded point, each single fold is a monotone min/max update (the box
never shrinks, neither in one step nor over the whole fold), and the final
box is the same for every permutation of the point sequence. -/
theorem boundingBox_fold_properties (b : CtxBox) (pts pts2 : List Point2)
    (hperm : pts.Perm pts2) :
    (∀ p ∈ pts, containsPoint (foldBox b pts) p) ∧
    (∀ p, boxExtends (updateCanvasBoundingBox b p) b) ∧
    boxExtends (foldBox b pts) b ∧
    foldBox b pts = foldBox b pts2 :=
  ⟨fun p hp => foldBox_contains pts b p hp, fun p => expand_extends b p,
   foldBox_extends pts b, foldBox_perm hperm b⟩

/-- Witness for C8 on the sentinel box and a two-point sequence and its
transposition. -/
theorem boundingBox_fold_witness :
    containsPoint (foldBox ⟨999999, 999999, 0, 0⟩ [⟨1, 2⟩, ⟨7, 3⟩]) ⟨1, 2⟩ ∧
    containsPoint (foldBox ⟨999999, 999999, 0, 0⟩ [⟨1, 2⟩, ⟨7, 3⟩]) ⟨7, 3⟩ ∧
    boxExtends (updateCanvasBoundingBox ⟨999999, 999999, 0, 0⟩ ⟨4, 4⟩)
      ⟨999999, 999999, 0, 0⟩ ∧
    boxExtends (foldBox ⟨999999, 999999, 0, 0⟩ [⟨1, 2⟩, ⟨7, 3⟩])
      ⟨999999, 999999, 0, 0⟩ ∧
    foldBox ⟨999999, 999999, 0, 0⟩ [⟨1, 2⟩, ⟨7, 3⟩] =
      foldBox ⟨999999, 999999, 0, 0⟩ [⟨7, 3⟩, ⟨1, 2⟩] := by
  have h := boundingBox_fold_properties ⟨999999, 999999, 0, 0⟩ [⟨1, 2⟩, ⟨7, 3⟩]
    [⟨7, 3⟩, ⟨1, 2⟩] (List.Perm.swap (⟨7, 3⟩ : Point2) (⟨1, 2⟩ : Point2) [])
  exact ⟨h.1 _ (by simp), h.1 _ (by simp), h.2.1 _, h.2.2.1, h.2.2.2⟩

/-- C9: for every screen coordinate pair, `getIntersects` with a null
target or an empty array target returns the empty intersection list at
once, without touching the raycaster (no ray is constructed) and without
faulting. -/
theorem getIntersects_null_or_empty (ctx : PickCtx) (x y : ℚ) :
    getIntersects ctx x y Target.nullT = (none, []) ∧
    getIntersects ctx x y (Target.arrayT []) = (none, []) :=
  ⟨rfl, rfl⟩

/-- C10: a landmark view with no symbol is reported not visible, with no
intersection test performed (the call count is zero). -/
theorem lmViewVisible_no_symbol (ctx : PickCtx) (lmToScreen : Nat → ℚ × ℚ)
    (lmView : LmView) (h : lmView.symbol = none) :
    lmViewVisible ctx lmToScreen lmView = (false, 0) := by
  unfold lmViewVisible
  rw [h]

/-- Witness for C10 on a symbol-less landmark view in the sample picking
environment. -/
theorem lmViewVisible_no_symbol_witness :
    (⟨none⟩ : LmView).symbol = none ∧
    lmViewVisible samplePickCtx (fun _ => (0, 0)) ⟨none⟩ = (false, 0) :=
  ⟨rfl, lmViewVisible_no_symbol samplePickCtx (fun _ => (0, 0)) ⟨none⟩ rfl⟩

end Landmarker
